import Mathlib

/-!
Verification of the conway event-summarization pipeline.

The definitions below are a shallow embedding of the backend pipeline:
the SQLite record store (`database.ts`), the work queue (`queue.ts`),
the summarization worker (`summarization-worker.ts`), the HTTP request
handlers of `server.ts`, and the polling loop's backoff logic
(`poller.ts`).  JSON stringify/parse round-trips are modelled as the
identity on structured values; JS floating-point arithmetic on backoff
waits is modelled over `ℚ`.
-/

namespace Conway

/-- A row of the `summaries` table, without the db-assigned rowid and
`created_at` column (assigned at insert time and irrelevant to the
properties proved here).  `event_id` carries a UNIQUE constraint in
the schema. -/
structure SummaryRecord where
  event_id : String
  event_type : String
  repo : String
  actor : String
  timestamp : String
  root_cause : String
  impact : String
  next_steps : String
  raw_summary : String
deriving DecidableEq, Repr

/-- The parsed form of a GitHub feed item as it appears inside an
event's `payload` column (the handler re-parses the stored JSON; the
round-trip is modelled as the identity). -/
structure JobEvent where
  id : String
  type : String
  repoName : Option String
  actorLogin : Option String
  created_at : String
deriving DecidableEq, Repr

/-- A row of the `events` table (`id` is the primary key). -/
structure EventRecord where
  id : String
  type : String
  repo : String
  actor : String
  created_at : String
  payload : JobEvent
  score : Option ℚ
  code_quality_score : Option ℚ
  category : Option String
  repo_context : Option String
deriving DecidableEq, Repr

/-- The record store: `events` and `summaries` tables plus the
`counters` row for `normal` events. -/
structure DbState where
  events : List EventRecord
  summaries : List SummaryRecord
  normalCount : Nat
deriving DecidableEq, Repr

def emptyDb : DbState := { events := [], summaries := [], normalCount := 0 }

/-- `SELECT * FROM summaries WHERE event_id = ?` (first match). -/
def getSummaryByEventId (db : DbState) (eventId : String) : Option SummaryRecord :=
  db.summaries.find? (fun s => s.event_id == eventId)

/-- `SELECT * FROM events WHERE id = ?`. -/
def getEvent (db : DbState) (eventId : String) : Option EventRecord :=
  db.events.find? (fun e => e.id == eventId)

/-- `Database.storeSummary`: `INSERT OR IGNORE` into a table whose
`event_id` column is UNIQUE.  If a row with the same `event_id` already
exists the statement is a no-op and `changes = 0` (`wasInserted =
false`); otherwise the row is appended and `wasInserted = true`. -/
def storeSummary (db : DbState) (s : SummaryRecord) : DbState × Bool :=
  if db.summaries.any (fun r => r.event_id == s.event_id) then
    (db, false)
  else
    ({ db with summaries := db.summaries ++ [s] }, true)

/-- `Database.clearAll`: counts both tables, deletes all rows and
zeroes the `normal` counter. -/
def clearAll (db : DbState) : DbState × Nat × Nat :=
  (emptyDb, db.events.length, db.summaries.length)

/-- `Database.getTotalCounts` result. -/
structure TotalCounts where
  totalSecurity : Nat
  totalCodeQuality : Nat
  totalNormal : Nat
  total : Nat
deriving DecidableEq, Repr

/-- `Database.getTotalCounts`: security/code-quality counts from the
`events` table, normal count from the `counters` row. -/
def getTotalCounts (db : DbState) : TotalCounts :=
  let sec := (db.events.filter (fun e => e.category == some "security")).length
  let cq := (db.events.filter (fun e => e.category == some "code_quality")).length
  let nor := db.normalCount
  { totalSecurity := sec, totalCodeQuality := cq, totalNormal := nor, total := sec + cq + nor }

/-- Applying a sequence of `storeSummary` calls (states threaded through;
the returned `wasInserted` flags are discarded). -/
def applySummaries (db : DbState) (ops : List SummaryRecord) : DbState :=
  ops.foldl (fun d r => (storeSummary d r).1) db

/-- Number of `summaries` rows carrying a given `event_id`. -/
def summaryCountFor (db : DbState) (eventId : String) : Nat :=
  (db.summaries.filter (fun s => s.event_id == eventId)).length

/-! ### Helper lemmas about the summaries table -/

theorem list_any_eq_isSome_find? {α : Type} (l : List α) (p : α → Bool) :
    l.any p = (l.find? p).isSome := by
  induction l with
  | nil => rfl
  | cons a t ih =>
    by_cases h : p a = true
    · simp [List.any_cons, List.find?_cons, h]
    · simp only [Bool.not_eq_true] at h
      simp [List.any_cons, List.find?_cons, h, ih]

theorem list_find?_singleton_none {α : Type} (p : α → Bool) (r : α)
    (h : p r = false) : List.find? p [r] = none := by
  rw [List.find?_eq_none]
  intro x hx
  rw [List.mem_singleton] at hx
  subst hx
  simp [h]

/-- A `storeSummary` whose key already has a row is a silent no-op
returning `wasInserted = false`. -/
theorem storeSummary_noop (db : DbState) (r : SummaryRecord)
    (h : (getSummaryByEventId db r.event_id).isSome) :
    storeSummary db r = (db, false) := by
  unfold storeSummary
  unfold getSummaryByEventId at h
  rw [list_any_eq_isSome_find?, h]
  simp

theorem getSummary_store_of_some (db : DbState) (r : SummaryRecord) (eventId : String)
    {s : SummaryRecord} (h : getSummaryByEventId db eventId = some s) :
    getSummaryByEventId (storeSummary db r).1 eventId = some s := by
  unfold storeSummary
  by_cases hany : db.summaries.any (fun x => x.event_id == r.event_id) = true
  · simpa [hany] using h
  · simp only [Bool.not_eq_true] at hany
    simp only [hany, Bool.false_eq_true, if_false]
    unfold getSummaryByEventId at h ⊢
    rw [List.find?_append, h]
    rfl

theorem getSummary_store_of_nomatch (db : DbState) (r : SummaryRecord) (eventId : String)
    (hne : (r.event_id == eventId) = false) :
    getSummaryByEventId (storeSummary db r).1 eventId = getSummaryByEventId db eventId := by
  unfold storeSummary
  by_cases hany : db.summaries.any (fun x => x.event_id == r.event_id) = true
  · simp [hany]
  · simp only [Bool.not_eq_true] at hany
    simp only [hany, Bool.false_eq_true, if_false]
    unfold getSummaryByEventId
    rw [List.find?_append,
      list_find?_singleton_none (fun s => s.event_id == eventId) r hne, Option.or_none]

theorem getSummary_store_of_match (db : DbState) (r : SummaryRecord) (eventId : String)
    (hnone : getSummaryByEventId db eventId = none)
    (heq : (r.event_id == eventId) = true) :
    getSummaryByEventId (storeSummary db r).1 eventId = some r := by
  have hre : r.event_id = eventId := by simpa using heq
  unfold storeSummary
  by_cases hany : db.summaries.any (fun x => x.event_id == r.event_id) = true
  · exfalso
    rw [list_any_eq_isSome_find?] at hany
    rcases hs : db.summaries.find? (fun x => x.event_id == r.event_id) with _ | s0
    · rw [hs] at hany; simp at hany
    · rw [hre] at hs
      unfold getSummaryByEventId at hnone
      rw [hnone] at hs
      exact absurd hs (by simp)
  · simp only [Bool.not_eq_true] at hany
    simp only [hany, Bool.false_eq_true, if_false]
    unfold getSummaryByEventId at hnone ⊢
    rw [List.find?_append, hnone, Option.none_or]
    exact List.find?_cons_of_pos _ heq

/-- Lookup after a sequence of `storeSummary` calls: a pre-existing row
survives unchanged; otherwise the first matching record of the sequence
is the one stored. -/
theorem applySummaries_get (ops : List SummaryRecord) : ∀ (db : DbState) (eventId : String),
    getSummaryByEventId (applySummaries db ops) eventId =
      ((getSummaryByEventId db eventId).or
        (ops.find? (fun r => r.event_id == eventId))) := by
  induction ops with
  | nil =>
    intro db eventId
    show getSummaryByEventId db eventId = _
    rcases h : getSummaryByEventId db eventId with _ | s <;> rfl
  | cons r ops ih =>
    intro db eventId
    have hstep : applySummaries db (r :: ops) = applySummaries (storeSummary db r).1 ops := rfl
    rw [hstep, ih]
    rcases h : getSummaryByEventId db eventId with _ | s
    · by_cases heq : (r.event_id == eventId) = true
      · rw [getSummary_store_of_match db r eventId h heq,
          List.find?_cons_of_pos (p := fun x => x.event_id == eventId) ops heq]
        rfl
      · simp only [Bool.not_eq_true] at heq
        rw [getSummary_store_of_nomatch db r eventId heq, h,
          List.find?_cons_of_neg _ (by simp [heq])]
    · rw [getSummary_store_of_some db r eventId h]
      rfl

theorem storeSummary_count_le (db : DbState) (r : SummaryRecord) (eventId : String)
    (h : summaryCountFor db eventId ≤ 1) :
    summaryCountFor (storeSummary db r).1 eventId ≤ 1 := by
  unfold storeSummary
  by_cases hany : db.summaries.any (fun x => x.event_id == r.event_id) = true
  · simpa [summaryCountFor, hany] using h
  · simp only [Bool.not_eq_true] at hany
    simp only [hany, Bool.false_eq_true, if_false]
    unfold summaryCountFor at h ⊢
    simp only [List.filter_append, List.length_append]
    by_cases heq : (r.event_id == eventId) = true
    · have hre : r.event_id = eventId := by simpa using heq
      have hzero : db.summaries.filter (fun s => s.event_id == eventId) = [] := by
        rw [List.filter_eq_nil_iff]
        intro a ha hmatch
        have hax : (a.event_id == r.event_id) = true := by
          have h1 : a.event_id = eventId := by simpa using hmatch
          simp [h1, hre]
        have : db.summaries.any (fun x => x.event_id == r.event_id) = true :=
          List.any_eq_true.mpr ⟨a, ha, hax⟩
        rw [this] at hany
        exact Bool.noConfusion hany
      rw [hzero]
      simp [List.filter_cons, heq]
    · simp only [Bool.not_eq_true] at heq
      have hnil : List.filter (fun s => s.event_id == eventId) [r] = [] := by
        simp [List.filter_cons, heq]
      rw [hnil]
      simpa using h

theorem applySummaries_count_le (ops : List SummaryRecord) :
    ∀ (db : DbState) (eventId : String), summaryCountFor db eventId ≤ 1 →
      summaryCountFor (applySummaries db ops) eventId ≤ 1 := by
  induction ops with
  | nil => intro db eventId h; exact h
  | cons r ops ih =>
    intro db eventId h
    exact ih (storeSummary db r).1 eventId (storeSummary_count_le db r eventId h)

/-! ### C1 -/

/-- C1: for every event identifier, after any sequence of `storeSummary`
calls starting from an empty store, at most one summary row for that
identifier exists; the stored row is the first record of the sequence
carrying that identifier (first write wins); and once a row exists,
every later `storeSummary` for the same identifier is a silent no-op
that leaves the store unchanged and reports `wasInserted = false`. -/
theorem summary_unique_first_write_wins (ops : List SummaryRecord) (eventId : String) :
    summaryCountFor (applySummaries emptyDb ops) eventId ≤ 1 ∧
    getSummaryByEventId (applySummaries emptyDb ops) eventId =
      ops.find? (fun r => r.event_id == eventId) ∧
    (∀ r : SummaryRecord, r.event_id = eventId →
      (getSummaryByEventId (applySummaries emptyDb ops) eventId).isSome →
      storeSummary (applySummaries emptyDb ops) r = (applySummaries emptyDb ops, false)) := by
  refine ⟨?_, ?_, ?_⟩
  · exact applySummaries_count_le ops emptyDb eventId (by simp [summaryCountFor, emptyDb])
  · rw [applySummaries_get ops emptyDb eventId]
    show (List.find? _ []).or _ = _
    rw [List.find?_nil, Option.none_or]
  · intro r hr hsome
    exact storeSummary_noop _ r (by rw [hr]; exact hsome)

def c1Rec1 : SummaryRecord :=
  { event_id := "e1", event_type := "PushEvent", repo := "octo/widgets", actor := "alice"
    timestamp := "2026-02-01T10:00:00Z", root_cause := "first", impact := "low"
    next_steps := "none", raw_summary := "r1" }

def c1Rec2 : SummaryRecord :=
  { c1Rec1 with root_cause := "second", raw_summary := "r2" }

/-- C1 witness: a duplicate submission for `"e1"` after a successful
first write leaves exactly the first record stored and is a no-op. -/
theorem summary_unique_first_write_wins_witness :
    summaryCountFor (applySummaries emptyDb [c1Rec1, c1Rec2]) "e1" ≤ 1 ∧
    getSummaryByEventId (applySummaries emptyDb [c1Rec1, c1Rec2]) "e1" = some c1Rec1 ∧
    storeSummary (applySummaries emptyDb [c1Rec1, c1Rec2]) c1Rec2 =
      (applySummaries emptyDb [c1Rec1, c1Rec2], false) := by
  have h := summary_unique_first_write_wins [c1Rec1, c1Rec2] "e1"
  refine ⟨h.1, ?_, h.2.2 c1Rec2 rfl (by decide)⟩
  rw [h.2.1]
  decide

/-! ### Server state: work queue, budget counters, PendingSet, SSE clients -/

/-- The job category computed by the summary request handler
(`'security' | 'code_quality'`). -/
inductive JobCategory
  | security
  | codeQuality
deriving DecidableEq, Repr

/-- A `QueueJob` as pushed by `app.get('/event/:eventId/summary')`:
`{eventId, event, score, repoContext, timestamp, category}`. -/
structure QueueJob where
  eventId : String
  event : JobEvent
  score : Option ℚ
  repoContext : Option String
  timestamp : String
  category : JobCategory
deriving DecidableEq, Repr

/-- Process-wide mutable state of `server.ts`: the record store, the
work queue (in-process backend), the two `API_BUDGET` counters, the
`pendingEvents` set (as a duplicate-free list) and the set of connected
SSE clients (as client ids). -/
structure ServerState where
  db : DbState
  queue : List QueueJob
  budgetSecurity : Nat
  budgetCodeQuality : Nat
  pending : List String
  clients : List Nat
deriving DecidableEq, Repr

def budgetOf (st : ServerState) : JobCategory → Nat
  | .security => st.budgetSecurity
  | .codeQuality => st.budgetCodeQuality

/-- `canGenerateSummary`: `API_BUDGET[category] < MAX_SUMMARIES_PER_CATEGORY`. -/
def canGenerateSummary (maxS : Nat) (st : ServerState) (c : JobCategory) : Bool :=
  budgetOf st c < maxS

/-- `incrementSummaryCount`: `API_BUDGET[category]++`. -/
def incrementSummaryCount (st : ServerState) : JobCategory → ServerState
  | .security => { st with budgetSecurity := st.budgetSecurity + 1 }
  | .codeQuality => { st with budgetCodeQuality := st.budgetCodeQuality + 1 }

/-- `MAX_SUMMARIES_PER_CATEGORY` default (`process.env` unset): 10. -/
def MAX_SUMMARIES_PER_CATEGORY : Nat := 10

/-- `event.category === 'code_quality' ? 'code_quality' : 'security'`:
every stored category other than exactly `'code_quality'` (including
`'both'`, `'normal'` and NULL) selects `'security'`. -/
def chooseCategory (c : Option String) : JobCategory :=
  if c == some "code_quality" then .codeQuality else .security

/-- `event.score ? { score: event.score } : null` — a score of 0 is
falsy in JS and also yields null. -/
def scoreField : Option ℚ → Option ℚ
  | none => none
  | some q => if q = 0 then none else some q

/-- The job constructed and pushed by the summary request handler. -/
def jobOf (eventId : String) (ev : EventRecord) : QueueJob :=
  { eventId := eventId
    event := ev.payload
    score := scoreField ev.score
    repoContext := ev.repo_context
    timestamp := ev.created_at
    category := chooseCategory ev.category }

/-- Responses of `app.get('/event/:eventId/summary')`. -/
inductive SummaryResponse
  | storedSummary (s : SummaryRecord)
  | generating
  | notFound
  | budgetExhausted (c : JobCategory)
deriving DecidableEq, Repr

/-- `app.get('/event/:eventId/summary')`:
1. an existing Summary is returned immediately (clearing stale
   PendingSet membership);
2. an event already in `pendingEvents` yields `"generating"` without
   enqueueing;
3. an unknown event yields 404;
4. an exhausted budget for the event's category yields 429 without any
   state change;
5. otherwise the id is added to `pendingEvents`, the category counter
   incremented, a job pushed, and `"generating"` returned. -/
def handleSummaryRequest (maxS : Nat) (st : ServerState) (eventId : String) :
    ServerState × SummaryResponse :=
  match getSummaryByEventId st.db eventId with
  | some s => ({ st with pending := st.pending.erase eventId }, .storedSummary s)
  | none =>
    if st.pending.contains eventId then
      (st, .generating)
    else
      match getEvent st.db eventId with
      | none => (st, .notFound)
      | some ev =>
        let category := chooseCategory ev.category
        if canGenerateSummary maxS st category then
          let st1 := { st with pending := st.pending ++ [eventId] }
          let st2 := incrementSummaryCount st1 category
          ({ st2 with queue := st2.queue ++ [jobOf eventId ev] }, .generating)
        else
          (st, .budgetExhausted category)

/-! ### C2 -/

/-- C2: a summary request for an event identifier in PendingSet (whose
defining invariant is that no Summary exists yet for it) returns
`"generating"`, changes no state at all — in particular it enqueues no
job — and leaves the Work Queue length unchanged. -/
theorem pending_request_returns_generating (maxS : Nat) (st : ServerState) (eventId : String)
    (hnosum : getSummaryByEventId st.db eventId = none)
    (hpend : st.pending.contains eventId = true) :
    handleSummaryRequest maxS st eventId = (st, .generating) ∧
    (handleSummaryRequest maxS st eventId).1.queue.length = st.queue.length := by
  have hm : eventId ∈ st.pending := by simpa using hpend
  have h : handleSummaryRequest maxS st eventId = (st, .generating) := by
    unfold handleSummaryRequest
    rw [hnosum]
    simp [hm]
  exact ⟨h, by rw [h]⟩

def c2Event : EventRecord :=
  { id := "e2", type := "PushEvent", repo := "octo/widgets", actor := "alice"
    created_at := "2026-02-01T10:00:00Z"
    payload := { id := "e2", type := "PushEvent", repoName := some "octo/widgets"
                 actorLogin := some "alice", created_at := "2026-02-01T10:00:00Z" }
    score := none, code_quality_score := none
    category := some "security", repo_context := none }

def c2State : ServerState :=
  { db := { events := [c2Event], summaries := [], normalCount := 0 }
    queue := [], budgetSecurity := 1, budgetCodeQuality := 0
    pending := ["e2"], clients := [] }

/-- C2 witness: a second request for pending event `"e2"` returns
`"generating"` and leaves the (empty) queue alone. -/
theorem pending_request_returns_generating_witness :
    handleSummaryRequest MAX_SUMMARIES_PER_CATEGORY c2State "e2" = (c2State, .generating) ∧
    (handleSummaryRequest MAX_SUMMARIES_PER_CATEGORY c2State "e2").1.queue.length =
      c2State.queue.length :=
  pending_request_returns_generating MAX_SUMMARIES_PER_CATEGORY c2State "e2"
    (by decide) (by decide)

/-! ### C3 -/

def c3Event : EventRecord :=
  { id := "e3", type := "PushEvent", repo := "octo/widgets", actor := "alice"
    created_at := "2026-02-01T10:05:00Z"
    payload := { id := "e3", type := "PushEvent", repoName := some "octo/widgets"
                 actorLogin := some "alice", created_at := "2026-02-01T10:05:00Z" }
    score := none, code_quality_score := none
    category := some "security", repo_context := none }

/-- State in which the security counter sits exactly at the ceiling
(10) while event `"e3"` is pending with no stored Summary — a state the
pipeline reaches when the tenth security summary request was for
`"e3"` and its worker job has not completed yet. -/
def c3State : ServerState :=
  { db := { events := [c3Event], summaries := [], normalCount := 0 }
    queue := [], budgetSecurity := 10, budgetCodeQuality := 0
    pending := ["e3"], clients := [] }

/-- C3 counterexample: a summary request made while the security
counter equals the ceiling does NOT always return a budget-exhausted
error — for the pending event `"e3"` it returns `"generating"`,
because the PendingSet check precedes the budget gate. -/
theorem budget_boundary_counterexample :
    c3State.budgetSecurity = MAX_SUMMARIES_PER_CATEGORY ∧
    (handleSummaryRequest MAX_SUMMARIES_PER_CATEGORY c3State "e3").2 =
      SummaryResponse.generating ∧
    (handleSummaryRequest MAX_SUMMARIES_PER_CATEGORY c3State "e3").2 ≠
      SummaryResponse.budgetExhausted JobCategory.security := by
  decide

/-- C3 (amended): `canGenerateSummary` is true exactly when the
per-category counter is strictly below the ceiling; and a summary
request that reaches the budget gate — event stored, no Summary yet,
not in PendingSet — while the counter of the event's category equals
the ceiling returns a budget-exhausted error with PendingSet, both
budget counters and the Work Queue unmodified. -/
theorem budget_gate_boundary (maxS : Nat) (st : ServerState) (eventId : String)
    (ev : EventRecord)
    (hnosum : getSummaryByEventId st.db eventId = none)
    (hnp : st.pending.contains eventId = false)
    (hev : getEvent st.db eventId = some ev)
    (hbud : budgetOf st (chooseCategory ev.category) = maxS) :
    (∀ c, canGenerateSummary maxS st c = true ↔ budgetOf st c < maxS) ∧
    canGenerateSummary maxS st (chooseCategory ev.category) = false ∧
    handleSummaryRequest maxS st eventId =
      (st, .budgetExhausted (chooseCategory ev.category)) := by
  have hm : eventId ∉ st.pending := by simpa using hnp
  have hcan : canGenerateSummary maxS st (chooseCategory ev.category) = false := by
    simp [canGenerateSummary, hbud]
  refine ⟨fun c => by simp [canGenerateSummary], hcan, ?_⟩
  unfold handleSummaryRequest
  rw [hnosum]
  simp [hm, hev, hcan]

def c3GateState : ServerState :=
  { db := { events := [c3Event], summaries := [], normalCount := 0 }
    queue := [], budgetSecurity := 10, budgetCodeQuality := 0
    pending := [], clients := [] }

/-- C3 witness: with the security counter at the ceiling and `"e3"` not
pending, the request is refused with budget-exhausted and the state is
untouched. -/
theorem budget_gate_boundary_witness :
    (∀ c, canGenerateSummary MAX_SUMMARIES_PER_CATEGORY c3GateState c = true ↔
      budgetOf c3GateState c < MAX_SUMMARIES_PER_CATEGORY) ∧
    canGenerateSummary MAX_SUMMARIES_PER_CATEGORY c3GateState
      (chooseCategory c3Event.category) = false ∧
    handleSummaryRequest MAX_SUMMARIES_PER_CATEGORY c3GateState "e3" =
      (c3GateState, .budgetExhausted (chooseCategory c3Event.category)) :=
  budget_gate_boundary MAX_SUMMARIES_PER_CATEGORY c3GateState "e3" c3Event
    (by decide) (by decide) (by decide) (by decide)

/-! ### C10 -/

/-- The two prompt templates of `SummarizationWorker.buildPrompt`. -/
inductive PromptRole
  | securityAnalyst
  | codeQualityReviewer
deriving DecidableEq, Repr

/-- Template dispatch of `SummarizationWorker.buildPrompt`:
`const isSecurity = category === 'security'` selects the Senior
Security Analyst template, otherwise the Senior Code Quality Engineer
template.  (The rendered prompt text is not needed by any claim and is
abstracted to the selected role.) -/
def buildPromptRole (job : QueueJob) : PromptRole :=
  if job.category == JobCategory.security then .securityAnalyst else .codeQualityReviewer

/-- C10: a summary request for an event whose stored category is
anything but exactly `'code_quality'` (`'both'`, `'normal'`, NULL, …)
charges the security counter and enqueues a job rendered with the
security-analyst template; the code-quality counter and template are
used exactly when the stored category is `'code_quality'`. -/
theorem summary_request_category_selection (maxS : Nat) (st : ServerState)
    (eventId : String) (ev : EventRecord)
    (hnosum : getSummaryByEventId st.db eventId = none)
    (hnp : st.pending.contains eventId = false)
    (hev : getEvent st.db eventId = some ev)
    (hcan : canGenerateSummary maxS st (chooseCategory ev.category) = true) :
    (ev.category ≠ some "code_quality" →
      chooseCategory ev.category = .security ∧
      (handleSummaryRequest maxS st eventId).1.budgetSecurity = st.budgetSecurity + 1 ∧
      (handleSummaryRequest maxS st eventId).1.budgetCodeQuality = st.budgetCodeQuality ∧
      (handleSummaryRequest maxS st eventId).1.queue = st.queue ++ [jobOf eventId ev] ∧
      (jobOf eventId ev).category = .security ∧
      buildPromptRole (jobOf eventId ev) = .securityAnalyst) ∧
    (ev.category = some "code_quality" →
      chooseCategory ev.category = .codeQuality ∧
      (handleSummaryRequest maxS st eventId).1.budgetCodeQuality = st.budgetCodeQuality + 1 ∧
      (handleSummaryRequest maxS st eventId).1.budgetSecurity = st.budgetSecurity ∧
      (handleSummaryRequest maxS st eventId).1.queue = st.queue ++ [jobOf eventId ev] ∧
      (jobOf eventId ev).category = .codeQuality ∧
      buildPromptRole (jobOf eventId ev) = .codeQualityReviewer) := by
  have hm : eventId ∉ st.pending := by simpa using hnp
  constructor
  · intro hne
    have hcat : chooseCategory ev.category = .security := by
      unfold chooseCategory
      simp [hne]
    rw [hcat] at hcan
    have hrun : handleSummaryRequest maxS st eventId =
        ({ st with pending := st.pending ++ [eventId]
                   budgetSecurity := st.budgetSecurity + 1
                   queue := st.queue ++ [jobOf eventId ev] }, .generating) := by
      unfold handleSummaryRequest
      rw [hnosum]
      simp [hm, hev, hcan, hcat, incrementSummaryCount]
    refine ⟨hcat, ?_, ?_, ?_, ?_, ?_⟩ <;>
      simp [hrun, jobOf, hcat, buildPromptRole]
  · intro hcq
    have hcat : chooseCategory ev.category = .codeQuality := by
      unfold chooseCategory
      simp [hcq]
    rw [hcat] at hcan
    have hrun : handleSummaryRequest maxS st eventId =
        ({ st with pending := st.pending ++ [eventId]
                   budgetCodeQuality := st.budgetCodeQuality + 1
                   queue := st.queue ++ [jobOf eventId ev] }, .generating) := by
      unfold handleSummaryRequest
      rw [hnosum]
      simp [hm, hev, hcan, hcat, incrementSummaryCount]
    refine ⟨hcat, ?_, ?_, ?_, ?_, ?_⟩ <;>
      simp [hrun, jobOf, hcat, buildPromptRole]

def c10Event : EventRecord :=
  { id := "e10", type := "PushEvent", repo := "octo/widgets", actor := "alice"
    created_at := "2026-02-01T10:10:00Z"
    payload := { id := "e10", type := "PushEvent", repoName := some "octo/widgets"
                 actorLogin := some "alice", created_at := "2026-02-01T10:10:00Z" }
    score := none, code_quality_score := none
    category := some "both", repo_context := none }

def c10State : ServerState :=
  { db := { events := [c10Event], summaries := [], normalCount := 0 }
    queue := [], budgetSecurity := 0, budgetCodeQuality := 0
    pending := [], clients := [] }

/-- C10 witness: a `'both'` event is charged to the security counter
and its job is rendered with the security-analyst template. -/
theorem summary_request_category_selection_witness :
    chooseCategory c10Event.category = .security ∧
    (handleSummaryRequest MAX_SUMMARIES_PER_CATEGORY c10State "e10").1.budgetSecurity =
      c10State.budgetSecurity + 1 ∧
    (handleSummaryRequest MAX_SUMMARIES_PER_CATEGORY c10State "e10").1.queue =
      c10State.queue ++ [jobOf "e10" c10Event] ∧
    buildPromptRole (jobOf "e10" c10Event) = .securityAnalyst := by
  have h := (summary_request_category_selection MAX_SUMMARIES_PER_CATEGORY c10State "e10"
    c10Event (by decide) (by decide) (by decide) (by decide)).1 (by decide)
  exact ⟨h.1, h.2.1, h.2.2.2.1, h.2.2.2.2.2⟩

/-! ### Fan-out notifier and summarization worker -/

/-- The four SSE broadcast kinds of `server.ts` (payloads abstracted to
the event identifier they concern). -/
inductive BroadcastMsg
  | event (eventId : String)
  | summary (eventId : String)
  | error (eventId : String)
  | reset
deriving DecidableEq, Repr

/-- `broadcast(type, payload)`: writes the message to every connected
SSE client; a client whose write throws (`dead c = true`) is removed
and does not receive the message.  Returns the new state and the list
of performed deliveries. -/
def broadcast (st : ServerState) (dead : Nat → Bool) (msg : BroadcastMsg) :
    ServerState × List (Nat × BroadcastMsg) :=
  ({ st with clients := st.clients.filter (fun c => !dead c) },
   (st.clients.filter (fun c => !dead c)).map (fun c => (c, msg)))

/-- `broadcastSummary`: removes the summary's event id from
`pendingEvents`, then broadcasts a summary message. -/
def broadcastSummary (st : ServerState) (dead : Nat → Bool) (eventId : String) :
    ServerState × List (Nat × BroadcastMsg) :=
  broadcast { st with pending := st.pending.erase eventId } dead (.summary eventId)

/-- `broadcastError`: broadcasts an error message.  It does NOT touch
`pendingEvents`. -/
def broadcastError (st : ServerState) (dead : Nat → Bool) (eventId : String) :
    ServerState × List (Nat × BroadcastMsg) :=
  broadcast st dead (.error eventId)

/-- The fields `parseSummaryResponse` reads off the parsed JSON object
(a missing field is `none`; a JS falsy empty string is represented as
`some ""`; a non-array bullet field is `none`). -/
structure ParsedJson where
  classification : Option String
  confidence : Option String
  one_line_summary : Option String
  root_cause : Option (List String)
  impact : Option (List String)
  next_steps : Option (List String)
deriving DecidableEq, Repr

/-- Outcome of one completion call + parse as seen by
`SummarizationWorker.processJob`:
* `rateLimited` — `generateSummary` threw a 429-flavoured error;
* `requestFailed` — any other network/timeout/HTTP failure;
* `malformed` — the response text contained no extractable JSON object
  or `JSON.parse` threw;
* `parsed p` — a JSON object was extracted and parsed. -/
inductive ModelResponse
  | rateLimited
  | requestFailed
  | malformed
  | parsed (p : ParsedJson)
deriving DecidableEq, Repr

/-- `parsed.classification || 'POLICY_VIOLATION'` (absent or empty
string is falsy). -/
def rawClassification (p : ParsedJson) : String :=
  match p.classification with
  | none => "POLICY_VIOLATION"
  | some s => if s = "" then "POLICY_VIOLATION" else s

/-- The fixed `classificationMap` table normalizing code-quality values
onto the security vocabulary. -/
def classificationMap (c : String) : Option String :=
  if c = "CRITICAL_ISSUE" then some "ACTIVE_ATTACK"
  else if c = "POOR_PRACTICE" then some "POLICY_VIOLATION"
  else if c = "MINOR_CONCERN" then some "BENIGN_ANOMALY"
  else none

/-- Classification after the mapping table has been applied. -/
def mappedClassification (p : ParsedJson) : String :=
  match classificationMap (rawClassification p) with
  | some m => m
  | none => rawClassification p

def validClasses : List String := ["ACTIVE_ATTACK", "POLICY_VIOLATION", "BENIGN_ANOMALY"]

/-- The result record of `parseSummaryResponse`. -/
structure ParsedSummary where
  classification : String
  confidence : String
  one_line_summary : String
  root_cause : List String
  impact : List String
  next_steps : List String
deriving DecidableEq, Repr

/-- `SummarizationWorker.parseSummaryResponse` after JSON extraction
has succeeded (the extraction/`JSON.parse` failure paths are the
`malformed` outcome of `ModelResponse`): apply the default, the mapping
table, and the final fallback to `POLICY_VIOLATION` for any value
outside the three canonical classes. -/
def parseSummaryResponse (p : ParsedJson) : ParsedSummary :=
  let c1 := mappedClassification p
  { classification := if validClasses.contains c1 then c1 else "POLICY_VIOLATION"
    confidence := match p.confidence with
      | none => "MEDIUM"
      | some s => if s = "" then "MEDIUM" else s
    one_line_summary := match p.one_line_summary with
      | none => "Analysis not available"
      | some s => if s = "" then "Analysis not available" else s
    root_cause := p.root_cause.getD []
    impact := p.impact.getD []
    next_steps := p.next_steps.getD [] }

/-- The summary row assembled by `processJob` from a parsed response
(`raw_summary` is `JSON.stringify(parsed)`, modelled by an injective
printer). -/
def summaryRecordOf (job : QueueJob) (parsed : ParsedSummary) : SummaryRecord :=
  { event_id := job.eventId
    event_type := job.event.type
    repo := job.event.repoName.getD "unknown"
    actor := job.event.actorLogin.getD "unknown"
    timestamp := job.event.created_at
    root_cause := String.intercalate "\n" parsed.root_cause
    impact := String.intercalate "\n" parsed.impact
    next_steps := String.intercalate "\n" parsed.next_steps
    raw_summary := reprStr parsed }

/-- Result of one `processJob` invocation: the new server state, the
worker's `processingEvents` set, the SSE deliveries performed through
the callbacks, and the cool-down sleep taken inside `processJob`
(60000 ms in the rate-limit branch, else 0). -/
structure WorkerResult where
  state : ServerState
  processing : List String
  delivered : List (Nat × BroadcastMsg)
  cooldownMs : Nat
deriving Repr

/-- `SummarizationWorker.processJob`:
1. skip if the event id is already in `processingEvents` or a Summary
   already exists;
2. mark the id as processing;
3. on a parsed response: build the record, `storeSummary`, invoke
   `onSummaryCreated` (= `broadcastSummary`, clearing PendingSet);
4. on a rate-limit failure: push the same job back and sleep 60 s;
5. on any other failure: invoke `onError` (= `broadcastError`);
6. finally: unmark the id. -/
def processJob (st : ServerState) (processing : List String) (dead : Nat → Bool)
    (resp : ModelResponse) (job : QueueJob) : WorkerResult :=
  if processing.contains job.eventId then
    { state := st, processing := processing, delivered := [], cooldownMs := 0 }
  else
    match getSummaryByEventId st.db job.eventId with
    | some _ => { state := st, processing := processing, delivered := [], cooldownMs := 0 }
    | none =>
      let processing1 := processing ++ [job.eventId]
      match resp with
      | .parsed p =>
        let parsed := parseSummaryResponse p
        let (db1, _) := storeSummary st.db (summaryRecordOf job parsed)
        let (st2, delivered) := broadcastSummary { st with db := db1 } dead job.eventId
        { state := st2, processing := processing1.erase job.eventId
          delivered := delivered, cooldownMs := 0 }
      | .rateLimited =>
        { state := { st with queue := st.queue ++ [job] }
          processing := processing1.erase job.eventId
          delivered := [], cooldownMs := 60000 }
      | .requestFailed =>
        let (st2, delivered) := broadcastError st dead job.eventId
        { state := st2, processing := processing1.erase job.eventId
          delivered := delivered, cooldownMs := 0 }
      | .malformed =>
        let (st2, delivered) := broadcastError st dead job.eventId
        { state := st2, processing := processing1.erase job.eventId
          delivered := delivered, cooldownMs := 0 }

/-! ### C4 -/

/-- C4: when the completion call is rate limited, `processJob` pushes
the same job back onto the tail of the Work Queue exactly once (the new
queue is the old one with exactly that job appended), takes the fixed
60-second cool-down, and leaves both per-category budget counters — and
all remaining server state — untouched. -/
theorem rate_limit_requeues_job_once (st : ServerState) (processing : List String)
    (dead : Nat → Bool) (job : QueueJob)
    (hnp : processing.contains job.eventId = false)
    (hnosum : getSummaryByEventId st.db job.eventId = none) :
    (processJob st processing dead .rateLimited job).state.queue = st.queue ++ [job] ∧
    (processJob st processing dead .rateLimited job).cooldownMs = 60000 ∧
    (processJob st processing dead .rateLimited job).state.budgetSecurity =
      st.budgetSecurity ∧
    (processJob st processing dead .rateLimited job).state.budgetCodeQuality =
      st.budgetCodeQuality ∧
    (processJob st processing dead .rateLimited job).state.db = st.db ∧
    (processJob st processing dead .rateLimited job).state.pending = st.pending ∧
    (processJob st processing dead .rateLimited job).state.clients = st.clients := by
  have hrun : processJob st processing dead .rateLimited job =
      { state := { st with queue := st.queue ++ [job] }
        processing := (processing ++ [job.eventId]).erase job.eventId
        delivered := [], cooldownMs := 60000 } := by
    have hm : job.eventId ∉ processing := by simpa using hnp
    unfold processJob
    rw [hnosum]
    simp [hm]
  rw [hrun]
  exact ⟨rfl, rfl, rfl, rfl, rfl, rfl, rfl⟩

def c4Job : QueueJob :=
  { eventId := "e4"
    event := { id := "e4", type := "PushEvent", repoName := some "octo/widgets"
               actorLogin := some "alice", created_at := "2026-02-01T10:20:00Z" }
    score := none, repoContext := none
    timestamp := "2026-02-01T10:20:00Z", category := .security }

def c4State : ServerState :=
  { db := emptyDb, queue := [], budgetSecurity := 3, budgetCodeQuality := 1
    pending := ["e4"], clients := [] }

/-- C4 witness: a rate-limited job for `"e4"` reappears exactly once at
the tail of the queue, the 60 s cool-down is taken and the budget
counters stay at 3 and 1. -/
theorem rate_limit_requeues_job_once_witness :
    (processJob c4State [] (fun _ => false) .rateLimited c4Job).state.queue =
      c4State.queue ++ [c4Job] ∧
    (processJob c4State [] (fun _ => false) .rateLimited c4Job).cooldownMs = 60000 ∧
    (processJob c4State [] (fun _ => false) .rateLimited c4Job).state.budgetSecurity =
      c4State.budgetSecurity ∧
    (processJob c4State [] (fun _ => false) .rateLimited c4Job).state.budgetCodeQuality =
      c4State.budgetCodeQuality ∧
    (processJob c4State [] (fun _ => false) .rateLimited c4Job).state.db = c4State.db ∧
    (processJob c4State [] (fun _ => false) .rateLimited c4Job).state.pending =
      c4State.pending ∧
    (processJob c4State [] (fun _ => false) .rateLimited c4Job).state.clients =
      c4State.clients :=
  rate_limit_requeues_job_once c4State [] (fun _ => false) c4Job (by decide) (by decide)

/-! ### C5 -/

def c5Event : EventRecord :=
  { id := "e5", type := "PushEvent", repo := "octo/widgets", actor := "alice"
    created_at := "2026-02-01T10:30:00Z"
    payload := { id := "e5", type := "PushEvent", repoName := some "octo/widgets"
                 actorLogin := some "alice", created_at := "2026-02-01T10:30:00Z" }
    score := none, code_quality_score := none
    category := some "security", repo_context := none }

def c5Job : QueueJob :=
  { eventId := "e5", event := c5Event.payload, score := none, repoContext := none
    timestamp := "2026-02-01T10:30:00Z", category := .security }

/-- State right before the worker processes `"e5"`, whose summary
request put it into PendingSet and incremented the security counter. -/
def c5State : ServerState :=
  { db := { events := [c5Event], summaries := [], normalCount := 0 }
    queue := [], budgetSecurity := 1, budgetCodeQuality := 0
    pending := ["e5"], clients := [7] }

/-- C5: evaluating the worker on a malformed-JSON completion response
for `"e5"`: the job is dropped (not requeued) and an error event is
emitted — but the event identifier is NOT removed from PendingSet, so a
later summary request for `"e5"` keeps returning `"generating"` and
never enqueues a fresh job.  (`broadcastError` never touches
`pendingEvents`; only broadcastSummary and the stored-summary branch of
the request handler do.) -/
theorem malformed_response_leaves_event_pending :
    (processJob c5State [] (fun _ => false) .malformed c5Job).state.queue = [] ∧
    (processJob c5State [] (fun _ => false) .malformed c5Job).delivered =
      [(7, BroadcastMsg.error "e5")] ∧
    (processJob c5State [] (fun _ => false) .malformed c5Job).state.pending = ["e5"] ∧
    (handleSummaryRequest MAX_SUMMARIES_PER_CATEGORY
      (processJob c5State [] (fun _ => false) .malformed c5Job).state "e5").2 =
      SummaryResponse.generating ∧
    (handleSummaryRequest MAX_SUMMARIES_PER_CATEGORY
      (processJob c5State [] (fun _ => false) .malformed c5Job).state "e5").1.queue = [] := by
  decide

/-! ### C9 -/

/-- C9: for every completion response whose JSON object was extracted
and parsed, the worker normalizes code-quality classification values
through the fixed table CRITICAL_ISSUE → ACTIVE_ATTACK, POOR_PRACTICE →
POLICY_VIOLATION, MINOR_CONCERN → BENIGN_ANOMALY; and any mapped value
outside the three canonical classes is replaced by POLICY_VIOLATION —
the parse always yields a canonical classification instead of failing
the job. -/
theorem classification_normalized (p : ParsedJson) :
    (p.classification = some "CRITICAL_ISSUE" →
      (parseSummaryResponse p).classification = "ACTIVE_ATTACK") ∧
    (p.classification = some "POOR_PRACTICE" →
      (parseSummaryResponse p).classification = "POLICY_VIOLATION") ∧
    (p.classification = some "MINOR_CONCERN" →
      (parseSummaryResponse p).classification = "BENIGN_ANOMALY") ∧
    (validClasses.contains (mappedClassification p) = false →
      (parseSummaryResponse p).classification = "POLICY_VIOLATION") ∧
    validClasses.contains (parseSummaryResponse p).classification = true := by
  refine ⟨?_, ?_, ?_, ?_, ?_⟩
  · intro h
    have hmap : mappedClassification p = "ACTIVE_ATTACK" := by
      unfold mappedClassification rawClassification
      rw [h]
      simp [classificationMap]
    unfold parseSummaryResponse
    rw [hmap]
    simp [validClasses]
  · intro h
    have hmap : mappedClassification p = "POLICY_VIOLATION" := by
      unfold mappedClassification rawClassification
      rw [h]
      simp [classificationMap]
    unfold parseSummaryResponse
    rw [hmap]
    simp [validClasses]
  · intro h
    have hmap : mappedClassification p = "BENIGN_ANOMALY" := by
      unfold mappedClassification rawClassification
      rw [h]
      simp [classificationMap]
    unfold parseSummaryResponse
    rw [hmap]
    simp [validClasses]
  · intro h
    have hm : mappedClassification p ∉ validClasses := by simpa using h
    simp [parseSummaryResponse, hm]
  · by_cases hc : validClasses.contains (mappedClassification p) = true
    · have hm : mappedClassification p ∈ validClasses := by simpa using hc
      have hcls : (parseSummaryResponse p).classification = mappedClassification p := by
        simp [parseSummaryResponse, hm]
      rw [hcls]
      exact hc
    · simp only [Bool.not_eq_true] at hc
      have hm : mappedClassification p ∉ validClasses := by simpa using hc
      have hcls : (parseSummaryResponse p).classification = "POLICY_VIOLATION" := by
        simp [parseSummaryResponse, hm]
      rw [hcls]
      decide

def c9Critical : ParsedJson :=
  { classification := some "CRITICAL_ISSUE", confidence := some "HIGH"
    one_line_summary := some "secrets committed to main"
    root_cause := some ["secret in diff"], impact := some ["credential leak"]
    next_steps := some ["rotate keys"] }

def c9Unknown : ParsedJson :=
  { classification := some "SOMETHING_ELSE", confidence := none
    one_line_summary := none, root_cause := none, impact := none, next_steps := none }

/-- C9 witness: CRITICAL_ISSUE maps to ACTIVE_ATTACK, and an unknown
value falls back to POLICY_VIOLATION. -/
theorem classification_normalized_witness :
    (parseSummaryResponse c9Critical).classification = "ACTIVE_ATTACK" ∧
    (parseSummaryResponse c9Unknown).classification = "POLICY_VIOLATION" :=
  ⟨(classification_normalized c9Critical).1 rfl,
   (classification_normalized c9Unknown).2.2.2.1 (by decide)⟩

/-! ### C7 -/

/-- `dbResult.eventsCleared / summariesCleared / queueJobs` of the
`/reset` response. -/
structure ResetInfo where
  eventsCleared : Nat
  summariesCleared : Nat
  queueJobsCleared : Nat
deriving DecidableEq, Repr

/-- `app.post('/reset')`: `db.clearAll()`, `queue.clear()`, zero both
`API_BUDGET` counters, `pendingEvents.clear()`, then `broadcastReset()`. -/
def handleReset (st : ServerState) (dead : Nat → Bool) :
    ServerState × ResetInfo × List (Nat × BroadcastMsg) :=
  let cleared := clearAll st.db
  let queueCount := st.queue.length
  let st1 : ServerState :=
    { st with db := cleared.1, queue := [], budgetSecurity := 0
              budgetCodeQuality := 0, pending := [] }
  let b := broadcast st1 dead .reset
  (b.1, { eventsCleared := cleared.2.1, summariesCleared := cleared.2.2
          queueJobsCleared := queueCount }, b.2)

/-- C7: after `/reset` completes, the record store's event and summary
counts (and the derived totals) are zero, the Work Queue length is
zero, both per-category budget counters are zero, PendingSet is empty,
and the reset notification has been delivered to every live subscriber
(every client whose SSE write does not fail). -/
theorem reset_clears_all_state (st : ServerState) (dead : Nat → Bool) :
    (handleReset st dead).1.db.events.length = 0 ∧
    (handleReset st dead).1.db.summaries.length = 0 ∧
    getTotalCounts (handleReset st dead).1.db =
      { totalSecurity := 0, totalCodeQuality := 0, totalNormal := 0, total := 0 } ∧
    (handleReset st dead).1.queue.length = 0 ∧
    (handleReset st dead).1.budgetSecurity = 0 ∧
    (handleReset st dead).1.budgetCodeQuality = 0 ∧
    (handleReset st dead).1.pending = [] ∧
    (∀ c ∈ st.clients, dead c = false →
      (c, BroadcastMsg.reset) ∈ (handleReset st dead).2.2) ∧
    (handleReset st dead).2.1 =
      { eventsCleared := st.db.events.length
        summariesCleared := st.db.summaries.length
        queueJobsCleared := st.queue.length } := by
  refine ⟨rfl, rfl, rfl, rfl, rfl, rfl, rfl, ?_, rfl⟩
  intro c hc hlive
  unfold handleReset broadcast
  simp only []
  rw [List.mem_map]
  refine ⟨c, ?_, rfl⟩
  rw [List.mem_filter]
  exact ⟨hc, by simp [hlive]⟩

def c7State : ServerState :=
  { db := { events := [c2Event], summaries := [c1Rec1], normalCount := 4 }
    queue := [c4Job], budgetSecurity := 7, budgetCodeQuality := 2
    pending := ["e2"], clients := [3, 8] }

/-- C7 witness: resetting a populated state (client 8's connection is
dead) zeroes everything and delivers the reset notification to the
live client 3. -/
theorem reset_clears_all_state_witness :
    (handleReset c7State (fun c => c == 8)).1.db.events.length = 0 ∧
    (handleReset c7State (fun c => c == 8)).1.queue.length = 0 ∧
    (handleReset c7State (fun c => c == 8)).1.budgetSecurity = 0 ∧
    (handleReset c7State (fun c => c == 8)).1.budgetCodeQuality = 0 ∧
    (handleReset c7State (fun c => c == 8)).1.pending = [] ∧
    (3, BroadcastMsg.reset) ∈ (handleReset c7State (fun c => c == 8)).2.2 := by
  have h := reset_clears_all_state c7State (fun c => c == 8)
  exact ⟨h.1, h.2.2.2.1, h.2.2.2.2.1, h.2.2.2.2.2.1, h.2.2.2.2.2.2.1,
    h.2.2.2.2.2.2.2.1 3 (by decide) (by decide)⟩

/-! ### Poller backoff (`poller.ts`) -/

/-- The backoff-relevant fields of `PollerConfig`. -/
structure BackoffConfig where
  pollInterval : ℚ
  initialBackoff : ℚ
  maxBackoff : ℚ
  backoffMultiplier : ℚ
deriving DecidableEq, Repr

/-- The constructor defaults; the shipped poller instance overrides
only `pollInterval` (to 10000), so these backoff values are the ones in
effect. -/
def defaultPollerConfig : BackoffConfig :=
  { pollInterval := 10000, initialBackoff := 5000
    maxBackoff := 300000, backoffMultiplier := 2 }

/-- `increaseBackoff`: `nextBackoff = currentBackoff * multiplier`;
`currentBackoff = min(nextBackoff * jitter, maxBackoff)` with
`jitter = 0.8 + Math.random() * 0.4 ∈ [0.8, 1.2)`. -/
def increaseBackoff (cfg : BackoffConfig) (jitter current : ℚ) : ℚ :=
  min (current * cfg.backoffMultiplier * jitter) cfg.maxBackoff

/-- `resetBackoff`: back to the configured floor. -/
def resetBackoff (cfg : BackoffConfig) : ℚ := cfg.initialBackoff

/-- How one iteration of `GitHubEventsPoller.poll` affects the backoff
counter:
* 304 and 200 call `resetBackoff`;
* 403/429 with a `retry-after` header waits on the (jittered) hint and
  leaves the backoff counter untouched;
* 403/429 without a hint, an unexpected status code, and a thrown
  error all call `increaseBackoff`. -/
inductive PollCycleOutcome
  | notModified
  | okEvents
  | rateLimitedHint (retryAfter : ℚ)
  | rateLimitedNoHint (jitter : ℚ)
  | unexpectedStatus (jitter : ℚ)
  | pollError (jitter : ℚ)
deriving DecidableEq, Repr

def backoffStep (cfg : BackoffConfig) (b : ℚ) : PollCycleOutcome → ℚ
  | .notModified => resetBackoff cfg
  | .okEvents => resetBackoff cfg
  | .rateLimitedHint _ => b
  | .rateLimitedNoHint j => increaseBackoff cfg j b
  | .unexpectedStatus j => increaseBackoff cfg j b
  | .pollError j => increaseBackoff cfg j b

/-- A cycle that is not a successful fetch (neither 200 nor 304). -/
def nonSuccess : PollCycleOutcome → Prop
  | .notModified => False
  | .okEvents => False
  | _ => True

/-- The jitter drawn by `increaseBackoff` lies in `[0.8, 1.2)`. -/
def jitterOk : PollCycleOutcome → Prop
  | .rateLimitedNoHint j => 4/5 ≤ j ∧ j < 6/5
  | .unexpectedStatus j => 4/5 ≤ j ∧ j < 6/5
  | .pollError j => 4/5 ≤ j ∧ j < 6/5
  | _ => True

/-- The successive backoff values along a sequence of poll cycles
(starting value included). -/
def backoffTrace (cfg : BackoffConfig) (b : ℚ) : List PollCycleOutcome → List ℚ
  | [] => [b]
  | o :: os => b :: backoffTrace cfg (backoffStep cfg b o) os

theorem backoffTrace_head (cfg : BackoffConfig) (b : ℚ) (os : List PollCycleOutcome) :
    ∃ t, backoffTrace cfg b os = b :: t := by
  cases os with
  | nil => exact ⟨[], rfl⟩
  | cons o os => exact ⟨_, rfl⟩

theorem increaseBackoff_mono_bounded (cfg : BackoffConfig) (b j : ℚ)
    (hmul : 5/4 ≤ cfg.backoffMultiplier)
    (hj : 4/5 ≤ j)
    (hbpos : 0 < b) (hb1 : cfg.initialBackoff ≤ b) (hb2 : b ≤ cfg.maxBackoff) :
    b ≤ increaseBackoff cfg j b ∧
    cfg.initialBackoff ≤ increaseBackoff cfg j b ∧
    increaseBackoff cfg j b ≤ cfg.maxBackoff := by
  have hmj : (1 : ℚ) ≤ cfg.backoffMultiplier * j := by nlinarith
  have hstep : b ≤ b * cfg.backoffMultiplier * j := by nlinarith
  have hle : b ≤ increaseBackoff cfg j b := le_min hstep hb2
  exact ⟨hle, le_trans hb1 hle, min_le_right _ _⟩

theorem backoffStep_mono_bounded (cfg : BackoffConfig) (b : ℚ) (o : PollCycleOutcome)
    (hmul : 5/4 ≤ cfg.backoffMultiplier)
    (hinitpos : 0 < cfg.initialBackoff)
    (hb1 : cfg.initialBackoff ≤ b) (hb2 : b ≤ cfg.maxBackoff)
    (hns : nonSuccess o) (hj : jitterOk o) :
    b ≤ backoffStep cfg b o ∧ cfg.initialBackoff ≤ backoffStep cfg b o ∧
      backoffStep cfg b o ≤ cfg.maxBackoff := by
  have hbpos : 0 < b := lt_of_lt_of_le hinitpos hb1
  cases o with
  | notModified => exact absurd hns not_false
  | okEvents => exact absurd hns not_false
  | rateLimitedHint r => exact ⟨le_refl b, hb1, hb2⟩
  | rateLimitedNoHint j =>
    exact increaseBackoff_mono_bounded cfg b j hmul hj.1 hbpos hb1 hb2
  | unexpectedStatus j =>
    exact increaseBackoff_mono_bounded cfg b j hmul hj.1 hbpos hb1 hb2
  | pollError j =>
    exact increaseBackoff_mono_bounded cfg b j hmul hj.1 hbpos hb1 hb2

theorem backoffTrace_chain_bounded (cfg : BackoffConfig)
    (hmul : 5/4 ≤ cfg.backoffMultiplier)
    (hinitpos : 0 < cfg.initialBackoff) :
    ∀ (os : List PollCycleOutcome) (b : ℚ),
      cfg.initialBackoff ≤ b → b ≤ cfg.maxBackoff →
      (∀ o ∈ os, nonSuccess o ∧ jitterOk o) →
      List.Chain' (· ≤ ·) (backoffTrace cfg b os) ∧
      (∀ x ∈ backoffTrace cfg b os, cfg.initialBackoff ≤ x ∧ x ≤ cfg.maxBackoff) := by
  intro os
  induction os with
  | nil =>
    intro b hb1 hb2 _
    refine ⟨by simp [backoffTrace], ?_⟩
    intro x hx
    rw [backoffTrace] at hx
    rw [List.mem_singleton] at hx
    subst hx
    exact ⟨hb1, hb2⟩
  | cons o os ih =>
    intro b hb1 hb2 hos
    have ho := hos o (List.mem_cons_self o os)
    have hstep := backoffStep_mono_bounded cfg b o hmul hinitpos hb1 hb2 ho.1 ho.2
    have ihr := ih (backoffStep cfg b o) hstep.2.1 hstep.2.2
      (fun o2 h2 => hos o2 (List.mem_cons_of_mem o h2))
    constructor
    · rw [backoffTrace]
      obtain ⟨t, ht⟩ := backoffTrace_head cfg (backoffStep cfg b o) os
      rw [ht]
      rw [ht] at ihr
      exact List.Chain'.cons hstep.1 ihr.1
    · intro x hx
      rw [backoffTrace, List.mem_cons] at hx
      rcases hx with rfl | hx
      · exact ⟨hb1, hb2⟩
      · exact ihr.2 x hx

/-! ### C6 -/

/-- C6: along any run of consecutive non-success poll cycles (rate
limits, unexpected statuses, network errors — with jitters drawn from
`[0.8, 1.2)`), the backoff values form a non-decreasing sequence, every
value lies within the configured `[initialBackoff, maxBackoff]` bounds,
and any successful cycle (200 or 304) resets the backoff to the
configured floor.  The hypotheses on the configuration (multiplier at
least 5/4, positive floor) hold for the shipped configuration, as the
witness shows. -/
theorem backoff_monotone_within_bounds (cfg : BackoffConfig) (b : ℚ)
    (os : List PollCycleOutcome)
    (hmul : 5/4 ≤ cfg.backoffMultiplier)
    (hinitpos : 0 < cfg.initialBackoff)
    (hb1 : cfg.initialBackoff ≤ b) (hb2 : b ≤ cfg.maxBackoff)
    (hos : ∀ o ∈ os, nonSuccess o ∧ jitterOk o) :
    List.Chain' (· ≤ ·) (backoffTrace cfg b os) ∧
    (∀ x ∈ backoffTrace cfg b os, cfg.initialBackoff ≤ x ∧ x ≤ cfg.maxBackoff) ∧
    backoffStep cfg b .okEvents = cfg.initialBackoff ∧
    backoffStep cfg b .notModified = cfg.initialBackoff := by
  have h := backoffTrace_chain_bounded cfg hmul hinitpos os b hb1 hb2 hos
  exact ⟨h.1, h.2, rfl, rfl⟩

/-- C6 witness: with the shipped configuration (floor 5000 ms, ceiling
300000 ms, multiplier 2), three consecutive non-success cycles produce
a non-decreasing, in-bounds backoff trace, and a success resets to
5000. -/
theorem backoff_monotone_within_bounds_witness :
    List.Chain' (· ≤ ·) (backoffTrace defaultPollerConfig 5000
      [.rateLimitedNoHint 1, .pollError (9/10), .rateLimitedHint 30]) ∧
    (∀ x ∈ backoffTrace defaultPollerConfig 5000
      [.rateLimitedNoHint 1, .pollError (9/10), .rateLimitedHint 30],
      defaultPollerConfig.initialBackoff ≤ x ∧ x ≤ defaultPollerConfig.maxBackoff) ∧
    backoffStep defaultPollerConfig 5000 .okEvents = defaultPollerConfig.initialBackoff ∧
    backoffStep defaultPollerConfig 5000 .notModified = defaultPollerConfig.initialBackoff := by
  refine backoff_monotone_within_bounds defaultPollerConfig 5000 _
    (by norm_num [defaultPollerConfig]) (by norm_num [defaultPollerConfig])
    (by norm_num [defaultPollerConfig]) (by norm_num [defaultPollerConfig]) ?_
  intro o ho
  rw [List.mem_cons, List.mem_cons, List.mem_singleton] at ho
  rcases ho with rfl | rfl | rfl
  · exact ⟨trivial, by constructor <;> norm_num⟩
  · exact ⟨trivial, by constructor <;> norm_num⟩
  · exact ⟨trivial, trivial⟩

/-! ### Queue backend selection (`queue.ts`) -/

/-- The two queue backends. -/
inductive Backend
  | redis
  | inMemory
deriving DecidableEq, Repr

/-- Backend-selection state of the `Queue` object: the `useInMemory`
flag, plus `redisTerminated`, which records that the Redis client can
no longer emit a `connect` event (no client was ever created because
`REDIS_URL` was unset, or the client's `retryStrategy` returned `null`
terminating reconnection, or `connect()` rejected and the client
reference was dropped).  Both queue backends' contents are carried so
the operations can be stated. -/
structure QueueState where
  useInMemory : Bool
  redisTerminated : Bool
  inMemoryQueue : List QueueJob
  redisQueue : List QueueJob
deriving DecidableEq, Repr

/-- State after `new Queue()`: `useInMemory = false`, no fallback yet. -/
def initialQueueState : QueueState :=
  { useInMemory := false, redisTerminated := false
    inMemoryQueue := [], redisQueue := [] }

/-- Events affecting backend selection in `Queue.init` and the
registered Redis handlers:
* `initNoUrl` — `REDIS_URL` unset: `useInMemory = true`, no client;
* `connectOk` — the client's `connect` handler: `useInMemory = false`;
* `retryExhausted` — `retryStrategy` with `times > 5`:
  `useInMemory = true` and reconnection stops (`null` returned);
* `connectFailed` — `connect()` threw: `useInMemory = true`,
  `redis = null`. -/
inductive QueueEvent
  | initNoUrl
  | connectOk
  | retryExhausted
  | connectFailed
deriving DecidableEq, Repr

def queueEventStep (s : QueueState) : QueueEvent → QueueState
  | .initNoUrl => { s with useInMemory := true, redisTerminated := true }
  | .connectOk => { s with useInMemory := false }
  | .retryExhausted => { s with useInMemory := true, redisTerminated := true }
  | .connectFailed => { s with useInMemory := true, redisTerminated := true }

def runQueueEvents (s : QueueState) (es : List QueueEvent) : QueueState :=
  es.foldl queueEventStep s

/-- Admissible event sequences, modelled from the Redis client's
contract: a `connect` event can only fire while the client exists and
its reconnection has not been terminated.  (The spec: backend selection
is attempted once at startup and fallback is permanent.) -/
def AdmissibleFrom : QueueState → List QueueEvent → Prop
  | _, [] => True
  | s, e :: es =>
    (e = .connectOk → s.redisTerminated = false) ∧
    AdmissibleFrom (queueEventStep s e) es

/-- The backend every `Queue` operation dispatches on:
`if (this.useInMemory) { ... } else { ...redis... }`. -/
def backendFor (s : QueueState) : Backend :=
  if s.useInMemory then .inMemory else .redis

/-- `Queue.push`: in-memory `push` or Redis `RPUSH` (tail append). -/
def queuePush (s : QueueState) (j : QueueJob) : QueueState :=
  if s.useInMemory then { s with inMemoryQueue := s.inMemoryQueue ++ [j] }
  else { s with redisQueue := s.redisQueue ++ [j] }

/-- `Queue.pop`: in-memory `shift()` or Redis `BLPOP` (head removal;
the bounded wait for an empty queue returns `none` either way). -/
def queuePop (s : QueueState) : QueueState × Option QueueJob :=
  if s.useInMemory then
    match s.inMemoryQueue with
    | [] => (s, none)
    | j :: rest => ({ s with inMemoryQueue := rest }, some j)
  else
    match s.redisQueue with
    | [] => (s, none)
    | j :: rest => ({ s with redisQueue := rest }, some j)

/-- `Queue.length`: in-memory length or Redis `LLEN`. -/
def queueLength (s : QueueState) : Nat :=
  if s.useInMemory then s.inMemoryQueue.length else s.redisQueue.length

/-- `Queue.clear`: empties the selected backend, returning the removed
count. -/
def queueClear (s : QueueState) : QueueState × Nat :=
  if s.useInMemory then ({ s with inMemoryQueue := [] }, s.inMemoryQueue.length)
  else ({ s with redisQueue := [] }, s.redisQueue.length)

theorem queueEventStep_terminated_mono (s : QueueState) (e : QueueEvent)
    (h : s.redisTerminated = true) : (queueEventStep s e).redisTerminated = true := by
  cases e <;> simp [queueEventStep, h]

/-! ### C8 -/

/-- C8: fallback to the in-process backend is one-way.  Once
`useInMemory` is true after a fallback (which always terminates the
Redis client: unset URL, exhausted retry budget, or failed connect), no
admissible continuation of events ever switches back: `useInMemory`
stays true, and every subsequent `push`/`pop`/`length`/`clear`
dispatches to the in-process backend (the Redis-side list is never
touched again). -/
theorem queue_fallback_is_permanent (es : List QueueEvent) : ∀ (s : QueueState),
    AdmissibleFrom s es →
    s.useInMemory = true → s.redisTerminated = true →
    (runQueueEvents s es).useInMemory = true ∧
    backendFor (runQueueEvents s es) = .inMemory ∧
    (∀ j, queuePush (runQueueEvents s es) j =
      { runQueueEvents s es with
          inMemoryQueue := (runQueueEvents s es).inMemoryQueue ++ [j] }) ∧
    (queuePop (runQueueEvents s es)).1.redisQueue = (runQueueEvents s es).redisQueue ∧
    queueLength (runQueueEvents s es) = (runQueueEvents s es).inMemoryQueue.length ∧
    (queueClear (runQueueEvents s es)).1 =
      { runQueueEvents s es with inMemoryQueue := [] } := by
  induction es with
  | nil =>
    intro s _ hmem _
    have hrun : runQueueEvents s [] = s := rfl
    rw [hrun]
    refine ⟨hmem, by simp [backendFor, hmem], ?_, ?_, ?_, ?_⟩
    · intro j
      simp [queuePush, hmem]
    · unfold queuePop
      rw [hmem]
      cases s.inMemoryQueue <;> simp
    · simp [queueLength, hmem]
    · simp [queueClear, hmem]
  | cons e es ih =>
    intro s hadm hmem hterm
    have hstep : runQueueEvents s (e :: es) = runQueueEvents (queueEventStep s e) es := rfl
    have hmem2 : (queueEventStep s e).useInMemory = true := by
      cases e with
      | connectOk => exact absurd (hadm.1 rfl) (by rw [hterm]; exact fun h => Bool.noConfusion h)
      | initNoUrl => rfl
      | retryExhausted => rfl
      | connectFailed => rfl
    have hterm2 : (queueEventStep s e).redisTerminated = true :=
      queueEventStep_terminated_mono s e hterm
    rw [hstep]
    exact ih (queueEventStep s e) hadm.2 hmem2 hterm2

/-- C8 witness: after the retry budget is exhausted the fallback
survives further failure events, and all four operations use the
in-process backend. -/
theorem queue_fallback_is_permanent_witness :
    (runQueueEvents (queueEventStep initialQueueState .retryExhausted)
      [.connectFailed]).useInMemory = true ∧
    backendFor (runQueueEvents (queueEventStep initialQueueState .retryExhausted)
      [.connectFailed]) = .inMemory ∧
    queuePush (runQueueEvents (queueEventStep initialQueueState .retryExhausted)
      [.connectFailed]) c4Job =
      { runQueueEvents (queueEventStep initialQueueState .retryExhausted) [.connectFailed] with
          inMemoryQueue :=
            (runQueueEvents (queueEventStep initialQueueState .retryExhausted)
              [.connectFailed]).inMemoryQueue ++ [c4Job] } := by
  have h := queue_fallback_is_permanent [.connectFailed]
    (queueEventStep initialQueueState .retryExhausted)
    (by constructor
        · intro hc
          exact absurd hc (by decide)
        · trivial)
    rfl rfl
  exact ⟨h.1, h.2.1, h.2.2.1 c4Job⟩

end Conway
